import Mathlib

/-!
Shallow embedding of the consensus payload builder
(`rs/consensus/src/consensus/payload_builder.rs`): the size budget resolver
`get_max_block_payload_size_bytes`, the build orchestration `get_payload`,
and the validation orchestration `validate_payload`, together with theorems
about their size-budget, rotation and round-trip behaviour.

Machine integers (`u64`, `NumBytes`) are modelled as `Nat`; note that `Nat`
subtraction is truncated, which coincides with `u64::saturating_sub` as used
by the source. Fallible paths are modelled with `Option`/`Except`; `Option`
results of `get_payload` are `none` exactly where the source would panic.
-/

namespace ICPayload

/-- Subnet configuration, the two registry fields read by the payload builder
(`SubnetRecord.max_block_payload_size`, `SubnetRecord.max_ingress_bytes_per_message`,
both `u64` in the proto definition). -/
structure SubnetRecord where
  max_block_payload_size : Nat
  max_ingress_bytes_per_message : Nat
  deriving DecidableEq

/-- The pair of subnet records handed to `get_payload`
(`block_maker::SubnetRecords`); `get_payload` reads `context_version`. -/
structure SubnetRecords where
  membership_version : SubnetRecord
  context_version : SubnetRecord
  deriving DecidableEq

/-- The required minimum computed by `get_max_block_payload_size_bytes`:
`MAX_BITCOIN_BLOCK_SIZE.max(MAX_XNET_PAYLOAD_IN_BYTES.get()).max(subnet_record.max_ingress_bytes_per_message)`.
The two constants are defined in `ic_types` (outside the sources embedded
here), so they appear as parameters `btcMax` and `xnetMax`; every theorem
below holds for all values of the two floors. -/
def required_min_size (btcMax xnetMax : Nat) (r : SubnetRecord) : Nat :=
  (btcMax.max xnetMax).max r.max_ingress_bytes_per_message

/-- Value computed by `PayloadBuilderImpl::get_max_block_payload_size_bytes`:
start from `subnet_record.max_block_payload_size` and clamp it up to
`required_min_size` when it is below it. The warning/metrics side effects of
the clamping branch are modelled separately by `resolve_with_metrics`. -/
def get_max_block_payload_size_bytes (btcMax xnetMax : Nat) (r : SubnetRecord) : Nat :=
  if r.max_block_payload_size < required_min_size btcMax xnetMax r then
    required_min_size btcMax xnetMax r
  else
    r.max_block_payload_size

/-- Cooldown of the rate-limited warning at the clamping site:
`warn!(every_n_seconds => 300, ...)`. -/
def warn_cooldown : Nat := 300

/-- Observable side-effect state of the resolver: the critical-error counter
(`metrics.critical_error_subnet_record_data_issue`), and the rate-limiter
state of the warning macro (last emission time in seconds, plus a count of
emitted warnings). -/
structure ResolverMetrics where
  critical_error_count : Nat
  last_warned_at : Option Nat
  warnings_emitted : Nat
  deriving DecidableEq

/-- Modelled from the spec: the rate limiting of the
`warn!(every_n_seconds => 300, ...)` macro, whose implementation (`ic_logger`)
is not among the embedded sources. Per the spec the warning is emitted at
most once per fixed cooldown window, tracked by a last-emitted timestamp. -/
def should_warn (last : Option Nat) (now : Nat) : Bool :=
  match last with
  | none => true
  | some t => decide (t + warn_cooldown ≤ now)

/-- The resolver `get_max_block_payload_size_bytes` with its side effects made
explicit. On the misconfiguration branch the source emits the rate-limited
warning and increments the critical-error counter; the counter increment
(`self.metrics.critical_error_subnet_record_data_issue.inc()`) is executed on
every call that takes the branch, it is not rate limited. -/
def resolve_with_metrics (btcMax xnetMax : Nat) (r : SubnetRecord) (now : Nat)
    (st : ResolverMetrics) : Nat × ResolverMetrics :=
  if r.max_block_payload_size < required_min_size btcMax xnetMax r then
    let warned := should_warn st.last_warned_at now
    (required_min_size btcMax xnetMax r,
      { critical_error_count := st.critical_error_count + 1
        last_warned_at := if warned then some now else st.last_warned_at
        warnings_emitted := st.warnings_emitted + (if warned then 1 else 0) })
  else
    (r.max_block_payload_size, st)

/-- Iterated resolver calls at a given sequence of call times. -/
def resolve_calls (btcMax xnetMax : Nat) (r : SubnetRecord) (times : List Nat)
    (st : ResolverMetrics) : ResolverMetrics :=
  times.foldl (fun s t => (resolve_with_metrics btcMax xnetMax r t s).2) st

/-- The resolved budget never changes when the metrics state changes: the
value component of `resolve_with_metrics` is `get_max_block_payload_size_bytes`. -/
theorem resolve_with_metrics_fst (btcMax xnetMax : Nat) (r : SubnetRecord) (now : Nat)
    (st : ResolverMetrics) :
    (resolve_with_metrics btcMax xnetMax r now st).1 =
      get_max_block_payload_size_bytes btcMax xnetMax r := by
  unfold resolve_with_metrics get_max_block_payload_size_bytes
  split <;> rfl

/-- Helper: the resolved budget is at least the required minimum. -/
theorem required_min_le_resolved (btcMax xnetMax : Nat) (r : SubnetRecord) :
    required_min_size btcMax xnetMax r ≤ get_max_block_payload_size_bytes btcMax xnetMax r := by
  unfold get_max_block_payload_size_bytes
  split <;> omega

/-- C2: for every subnet record (and all values of the two fixed floors), the
budget returned by the size budget resolver is at least each of: fixed floor A
(`MAX_BITCOIN_BLOCK_SIZE`), fixed floor B (`MAX_XNET_PAYLOAD_IN_BYTES`), and
the record's `max_ingress_bytes_per_message`; hence at least their maximum. -/
theorem resolved_budget_ge_floors (btcMax xnetMax : Nat) (r : SubnetRecord) :
    btcMax ≤ get_max_block_payload_size_bytes btcMax xnetMax r ∧
    xnetMax ≤ get_max_block_payload_size_bytes btcMax xnetMax r ∧
    r.max_ingress_bytes_per_message ≤ get_max_block_payload_size_bytes btcMax xnetMax r := by
  have h := required_min_le_resolved btcMax xnetMax r
  unfold required_min_size at h
  simp only [Nat.max_def] at h
  constructor
  · split_ifs at h <;> omega
  constructor
  · split_ifs at h <;> omega
  · split_ifs at h <;> omega

/-- C1 (counterexample): with both fixed floors 0 and the record
`{max_block_payload_size := 500, max_ingress_bytes_per_message := 1000000}`
(the spec's own concrete scenario), two resolver calls at times 0 and 1 —
both inside a single 300-second cooldown window — increment the dedicated
fault counter twice, refuting that it increments exactly once per cooldown
window regardless of call frequency. (The warning, by contrast, is emitted
only on the first of the two calls.) -/
theorem resolver_counter_not_rate_limited_cx :
    (⟨500, 1000000⟩ : SubnetRecord).max_block_payload_size <
        required_min_size 0 0 ⟨500, 1000000⟩ ∧
    (1 : Nat) + warn_cooldown ≤ warn_cooldown + warn_cooldown ∧
    (resolve_calls 0 0 ⟨500, 1000000⟩ [0, 1] ⟨0, none, 0⟩).critical_error_count = 2 ∧
    (resolve_calls 0 0 ⟨500, 1000000⟩ [0, 1] ⟨0, none, 0⟩).warnings_emitted = 1 := by
  decide

/-- C1 (amended): whenever `max_block_payload_size < required_min`, every
resolver call returns the clamped budget `required_min` and does not fail;
the dedicated fault counter increments once per call — so by `k` after any
`k` calls, regardless of their times — while the rate-limited warning is not
re-emitted by a call that falls within the cooldown window of the last
emission. -/
theorem resolver_clamp_alarm (btcMax xnetMax : Nat) (r : SubnetRecord)
    (hmis : r.max_block_payload_size < required_min_size btcMax xnetMax r) :
    (∀ now st, (resolve_with_metrics btcMax xnetMax r now st).1 =
        required_min_size btcMax xnetMax r) ∧
    (∀ now st, (resolve_with_metrics btcMax xnetMax r now st).2.critical_error_count =
        st.critical_error_count + 1) ∧
    (∀ times st, (resolve_calls btcMax xnetMax r times st).critical_error_count =
        st.critical_error_count + times.length) ∧
    (∀ now st t, st.last_warned_at = some t → now < t + warn_cooldown →
        (resolve_with_metrics btcMax xnetMax r now st).2.warnings_emitted =
          st.warnings_emitted) := by
  refine ⟨?_, ?_, ?_, ?_⟩
  · intro now st
    unfold resolve_with_metrics
    rw [if_pos hmis]
  · intro now st
    unfold resolve_with_metrics
    rw [if_pos hmis]
  · intro times
    induction times with
    | nil => intro st; rfl
    | cons t ts ih =>
        intro st
        have hstep : ∀ s : ResolverMetrics,
            (resolve_with_metrics btcMax xnetMax r t s).2.critical_error_count =
              s.critical_error_count + 1 := by
          intro s
          unfold resolve_with_metrics
          rw [if_pos hmis]
        show (resolve_calls btcMax xnetMax r ts
            (resolve_with_metrics btcMax xnetMax r t st).2).critical_error_count = _
        rw [ih, hstep]
        simp [List.length_cons]
        omega
  · intro now st t hlast hwin
    unfold resolve_with_metrics
    rw [if_pos hmis]
    have hwarn : should_warn st.last_warned_at now = false := by
      rw [hlast]
      unfold should_warn
      simp only [decide_eq_false_iff_not]
      omega
    simp [hwarn]

/-- C1 (witness): the amended theorem applied at the spec's concrete scenario
(floors 0, `max_ingress_bytes_per_message` one million,
`max_block_payload_size` 500): the misconfigured call resolves to the
required minimum and increments the fault counter from 0 to 1. -/
theorem resolver_clamp_alarm_witness :
    (resolve_with_metrics 0 0 ⟨500, 1000000⟩ 0 ⟨0, none, 0⟩).1 =
        required_min_size 0 0 ⟨500, 1000000⟩ ∧
    (resolve_with_metrics 0 0 ⟨500, 1000000⟩ 0 ⟨0, none, 0⟩).2.critical_error_count = 1 :=
  ⟨(resolver_clamp_alarm 0 0 ⟨500, 1000000⟩ (by decide)).1 0 ⟨0, none, 0⟩,
   (resolver_clamp_alarm 0 0 ⟨500, 1000000⟩ (by decide)).2.1 0 ⟨0, none, 0⟩⟩

/-- Permanent (non-retryable) payload validation errors
(`PayloadPermanentError`): the size check failure `PayloadTooBig { expected,
received }` raised by `validate_payload`, and section-specific permanent
errors, abstracted by a numeric tag. -/
inductive PayloadPermanentError where
  | PayloadTooBig (expected received : Nat)
  | SectionFault (tag : Nat)
  deriving DecidableEq

/-- Payload validation errors (`ValidationError`): permanent, or transient
(retryable, e.g. registry unavailable), the latter abstracted by a tag. -/
inductive PayloadValidationError where
  | Permanent (e : PayloadPermanentError)
  | Transient (tag : Nat)
  deriving DecidableEq

instance {ε α : Type} [DecidableEq ε] [DecidableEq α] : DecidableEq (Except ε α) := fun x y =>
  match x, y with
  | .error a, .error b => decidable_of_iff (a = b) (by simp)
  | .ok a, .ok b => decidable_of_iff (a = b) (by simp)
  | .error _, .ok _ => .isFalse (by simp)
  | .ok _, .error _ => .isFalse (by simp)

/-- The `BatchPayloadSectionBuilder` contract: `build_payload` writes into the
batch payload (abstract type `BP`) given height, context, byte limit and past
payloads, returning the updated payload and the byte count it reports;
`validate_payload` inspects a batch payload and returns the byte count it
charges, or a validation error. Contexts and past payloads are opaque type
parameters `Ctx` and `PP`; heights and byte counts are `Nat`. -/
structure SectionBuilder (BP Ctx PP : Type) where
  build_payload : BP → Nat → Ctx → Nat → PP → BP × Nat
  validate_payload : Nat → BP → Ctx → PP → Except PayloadValidationError Nat

/-- A consensus block payload (`Payload`): a summary block, or a data block
carrying a batch payload (`payload.as_ref().as_data().batch`). -/
inductive Payload (BP : Type) where
  | Summary
  | Data (batch : BP)
  deriving DecidableEq

/-- `Payload::is_summary`. -/
def Payload.is_summary {BP : Type} : Payload BP → Bool
  | .Summary => true
  | .Data _ => false

/-- `PayloadBuilderImpl`: the list of section builders and the registry read
path `get_subnet_record` (registry client + subnet id + logger collapsed into
one lookup function of the validation context). -/
structure PayloadBuilderImpl (BP Ctx PP : Type) where
  section_builder : List (SectionBuilder BP Ctx PP)
  registry : Ctx → Except PayloadValidationError SubnetRecord

/-- `PayloadBuilderImpl::new`: the fixed constructor order of the section
builders is Ingress, SelfValidating, XNet, CanisterHttp. -/
def PayloadBuilderImpl.new {BP Ctx PP : Type}
    (ingress selfValidating xnet canisterHttp : SectionBuilder BP Ctx PP)
    (registry : Ctx → Except PayloadValidationError SubnetRecord) :
    PayloadBuilderImpl BP Ctx PP :=
  { section_builder := [ingress, selfValidating, xnet, canisterHttp]
    registry := registry }

/-- `Vec::rotate_right(k)` for `k ≤ length`: the last `k` elements move to the
front. -/
def rotateRight {α : Type} (l : List α) (k : Nat) : List α :=
  l.drop (l.length - k) ++ l.take (l.length - k)

/-- The section visit order computed by `get_payload`:
`(0..num_sections).collect()` rotated right by `height % num_sections`. -/
def section_select (num_sections height : Nat) : List Nat :=
  rotateRight (List.range num_sections) (height % num_sections)

/-- The loop body of `get_payload` over a list of section indices, carrying
`batch_payload` and `accumulated_size`. Each visited builder receives
`byte_limit = max_block_payload_size.saturating_sub(accumulated_size)`, which
is `Nat` truncated subtraction here. Besides payload and accumulated size the
loop returns the trace of `(section index, bytes reported)` pairs in visit
order; `get_payload` discards the trace. An out-of-range index (an indexing
panic in the source) yields `none`. -/
def build_loop {BP Ctx PP : Type} (builders : List (SectionBuilder BP Ctx PP))
    (height : Nat) (ctx : Ctx) (maxB : Nat) (pp : PP) :
    List Nat → BP → Nat → Option (BP × Nat × List (Nat × Nat))
  | [], bp, acc => some (bp, acc, [])
  | i :: rest, bp, acc =>
    match builders.get? i with
    | none => none
    | some b =>
      let r := b.build_payload bp height ctx (maxB - acc) pp
      match build_loop builders height ctx maxB pp rest r.1 (acc + r.2) with
      | none => none
      | some (bp1, acc1, tr) => some (bp1, acc1, (i, r.2) :: tr)

/-- `PayloadBuilderImpl::get_payload`: resolve the budget from the
construction-time subnet record (`subnet_records.context_version`), rotate the
section order right by `height % num_sections`, and drive the section
builders, accumulating reported sizes. `none` marks the panics of the source
(`height % 0` when there are no section builders, out-of-range indexing);
the constructed impl always has 4 sections and never returns `none`, see the
totality theorem. -/
def get_payload {BP Ctx PP : Type} [Inhabited BP] (btcMax xnetMax : Nat)
    (pb : PayloadBuilderImpl BP Ctx PP) (height : Nat) (pp : PP) (ctx : Ctx)
    (subnet_records : SubnetRecords) : Option BP :=
  let num_sections := pb.section_builder.length
  if num_sections = 0 then none
  else
    let sel := section_select num_sections height
    let maxB := get_max_block_payload_size_bytes btcMax xnetMax subnet_records.context_version
    (build_loop pb.section_builder height ctx maxB pp sel default 0).map (fun x => x.1)

/-- The loop of `validate_payload`: walk the section builders in fixed list
order, accumulate the byte counts their `validate_payload` returns, and fail
with permanent `PayloadTooBig { expected := budget, received := accumulated }`
as soon as the accumulated size exceeds the budget. Returns the final
accumulated size on success. -/
def validate_loop {BP Ctx PP : Type} (maxB height : Nat) (bp : BP) (ctx : Ctx) (pp : PP) :
    List (SectionBuilder BP Ctx PP) → Nat → Except PayloadValidationError Nat
  | [], acc => .ok acc
  | b :: rest, acc =>
    match b.validate_payload height bp ctx pp with
    | .error e => .error e
    | .ok used =>
      let acc1 := acc + used
      if maxB < acc1 then
        .error (.Permanent (.PayloadTooBig maxB acc1))
      else
        validate_loop maxB height bp ctx pp rest acc1

/-- `PayloadBuilderImpl::validate_payload`: summary payloads validate
immediately; otherwise resolve the subnet record for the context's registry
version, resolve the budget from it, and run the validation loop over the
section builders in constructor order. -/
def validate_payload {BP Ctx PP : Type} (btcMax xnetMax : Nat)
    (pb : PayloadBuilderImpl BP Ctx PP) (height : Nat) (payload : Payload BP)
    (pp : PP) (ctx : Ctx) : Except PayloadValidationError Unit :=
  match payload with
  | .Summary => .ok ()
  | .Data batch =>
    match pb.registry ctx with
    | .error e => .error e
    | .ok subnet_record =>
      let maxB := get_max_block_payload_size_bytes btcMax xnetMax subnet_record
      match validate_loop maxB height batch ctx pp pb.section_builder 0 with
      | .error e => .error e
      | .ok _ => .ok ()

/-- First element of the rotated section order at a height (the section that
gets first pick of the budget). -/
def firstSlot (n height : Nat) : Nat := (section_select n height).headD 0

/-- Pointwise association of section builders to validation byte counts: each
builder's `validate_payload` on the given batch payload succeeds with the
corresponding count. -/
def validates_to {BP Ctx PP : Type} (builders : List (SectionBuilder BP Ctx PP))
    (vs : List Nat) (height : Nat) (bp : BP) (ctx : Ctx) (pp : PP) : Prop :=
  List.Forall₂ (fun b v => b.validate_payload height bp ctx pp = .ok v) builders vs

/-- Helper: every index in the rotated section order is in range. -/
theorem mem_section_select_lt {n height i : Nat} (h : i ∈ section_select n height) :
    i < n := by
  unfold section_select rotateRight at h
  rcases List.mem_append.mp h with h1 | h1
  · exact List.mem_range.mp (List.mem_of_mem_drop h1)
  · exact List.mem_range.mp (List.mem_of_mem_take h1)

/-- Helper: the rotated section order is a permutation of `0 .. n-1`. -/
theorem section_select_perm (n height : Nat) :
    (section_select n height).Perm (List.range n) := by
  unfold section_select rotateRight
  have h : ((List.range n).drop ((List.range n).length - height % n) ++
      (List.range n).take ((List.range n).length - height % n)).Perm
      ((List.range n).take ((List.range n).length - height % n) ++
      (List.range n).drop ((List.range n).length - height % n)) :=
    List.perm_append_comm
  rw [List.take_append_drop] at h
  exact h

/-- Helper: the trace returned by the build loop lists the visit order and
accounts for the accumulated size. -/
theorem build_loop_trace {BP Ctx PP : Type} (builders : List (SectionBuilder BP Ctx PP))
    (height : Nat) (ctx : Ctx) (maxB : Nat) (pp : PP) :
    ∀ (order : List Nat) (bp : BP) (acc : Nat) (bp1 : BP) (acc1 : Nat)
      (tr : List (Nat × Nat)),
      build_loop builders height ctx maxB pp order bp acc = some (bp1, acc1, tr) →
      tr.map Prod.fst = order ∧ acc1 = acc + (tr.map Prod.snd).sum := by
  intro order
  induction order with
  | nil =>
    intro bp acc bp1 acc1 tr h
    simp only [build_loop, Option.some.injEq, Prod.mk.injEq] at h
    obtain ⟨_, _, rfl⟩ := h
    simp
    omega
  | cons i rest ih =>
    intro bp acc bp1 acc1 tr h
    simp only [build_loop] at h
    split at h
    · exact absurd h (by simp)
    · split at h
      · exact absurd h (by simp)
      · rename_i b hg bp2 acc2 tr2 hr
        simp only [Option.some.injEq, Prod.mk.injEq] at h
        obtain ⟨rfl, rfl, rfl⟩ := h
        obtain ⟨hfst, hsum⟩ := ih _ _ _ _ _ hr
        constructor
        · simp [hfst]
        · simp only [List.map_cons, List.sum_cons]
          omega

/-- Helper: when every section builder honors its byte limit, the accumulated
size after the build loop never exceeds the budget. -/
theorem build_loop_acc_le {BP Ctx PP : Type} (builders : List (SectionBuilder BP Ctx PP))
    (height : Nat) (ctx : Ctx) (maxB : Nat) (pp : PP)
    (hcontract : ∀ b ∈ builders, ∀ bp lim, (b.build_payload bp height ctx lim pp).2 ≤ lim) :
    ∀ (order : List Nat) (bp : BP) (acc : Nat) (bp1 : BP) (acc1 : Nat)
      (tr : List (Nat × Nat)),
      acc ≤ maxB →
      build_loop builders height ctx maxB pp order bp acc = some (bp1, acc1, tr) →
      acc1 ≤ maxB := by
  intro order
  induction order with
  | nil =>
    intro bp acc bp1 acc1 tr hacc h
    simp only [build_loop, Option.some.injEq, Prod.mk.injEq] at h
    omega
  | cons i rest ih =>
    intro bp acc bp1 acc1 tr hacc h
    simp only [build_loop] at h
    split at h
    · exact absurd h (by simp)
    · split at h
      · exact absurd h (by simp)
      · rename_i b hg xr bp2 acc2 tr2 hr
        have hb : b ∈ builders := List.get?_mem hg
        have hused : (b.build_payload bp height ctx (maxB - acc) pp).2 ≤ maxB - acc :=
          hcontract b hb bp (maxB - acc)
        simp only [Option.some.injEq, Prod.mk.injEq] at h
        obtain ⟨rfl, rfl, rfl⟩ := h
        exact ih _ _ _ _ _ (by omega) hr

/-- Helper: the build loop succeeds whenever every visited index is in range. -/
theorem build_loop_total {BP Ctx PP : Type} (builders : List (SectionBuilder BP Ctx PP))
    (height : Nat) (ctx : Ctx) (maxB : Nat) (pp : PP) :
    ∀ (order : List Nat) (bp : BP) (acc : Nat),
      (∀ i ∈ order, i < builders.length) →
      (build_loop builders height ctx maxB pp order bp acc).isSome = true := by
  intro order
  induction order with
  | nil => intro bp acc _; simp [build_loop]
  | cons i rest ih =>
    intro bp acc hin
    have hi : i < builders.length := hin i (List.mem_cons_self i rest)
    simp only [build_loop]
    split
    · rename_i hg
      rw [List.get?_eq_getElem?] at hg
      rw [List.getElem?_eq_none_iff] at hg
      omega
    · rename_i b hg
      have hrest := ih (b.build_payload bp height ctx (maxB - acc) pp).1
        (acc + (b.build_payload bp height ctx (maxB - acc) pp).2)
        (fun j hj => hin j (List.mem_cons_of_mem i hj))
      split
      · rename_i hr
        rw [hr] at hrest
        simp at hrest
      · simp

/-- Helper: when every section validates with the associated counts and their
total stays within the budget, the validation loop succeeds with that total. -/
theorem validate_loop_ok {BP Ctx PP : Type} (maxB height : Nat) (bp : BP) (ctx : Ctx)
    (pp : PP) :
    ∀ (builders : List (SectionBuilder BP Ctx PP)) (vs : List Nat),
      validates_to builders vs height bp ctx pp →
      ∀ acc : Nat, acc + vs.sum ≤ maxB →
      validate_loop maxB height bp ctx pp builders acc = .ok (acc + vs.sum) := by
  intro builders vs hval
  unfold validates_to at hval
  induction hval with
  | nil => intro acc hle; simp [validate_loop]
  | @cons b v bs vs2 hb hrest ih =>
    intro acc hle
    simp only [List.sum_cons] at hle
    simp only [validate_loop]
    rw [hb]
    simp only [List.sum_cons]
    rw [if_neg (by omega)]
    rw [ih (acc + v) (by omega)]
    congr 1
    omega

/-- C7: validation of a summary payload returns success immediately, for every
payload builder (in particular one whose registry lookup fails and whose
section builders all fail), every height, every history and every context:
neither the registry, nor the budget resolver, nor any section builder is
consulted. -/
theorem validate_summary_short_circuit {BP Ctx PP : Type} (btcMax xnetMax : Nat)
    (pb : PayloadBuilderImpl BP Ctx PP) (height : Nat) (pp : PP) (ctx : Ctx) :
    validate_payload btcMax xnetMax pb height Payload.Summary pp ctx = .ok () := rfl

/-- Helper: if the sections before some builder `b` validate within budget and
`b`'s count makes the running total exceed the budget, the validation loop
stops at `b` with `PayloadTooBig`, whatever builders follow. -/
theorem validate_loop_stops {BP Ctx PP : Type} (maxB height : Nat) (bp : BP) (ctx : Ctx)
    (pp : PP) :
    ∀ (pre : List (SectionBuilder BP Ctx PP)) (vs : List Nat),
      validates_to pre vs height bp ctx pp →
      ∀ acc : Nat, (∀ k, acc + (vs.take k).sum ≤ maxB) →
      ∀ (b : SectionBuilder BP Ctx PP) (u : Nat),
        b.validate_payload height bp ctx pp = .ok u →
        maxB < acc + vs.sum + u →
      ∀ post : List (SectionBuilder BP Ctx PP),
        validate_loop maxB height bp ctx pp (pre ++ b :: post) acc =
          .error (.Permanent (.PayloadTooBig maxB (acc + vs.sum + u))) := by
  intro pre vs hval
  unfold validates_to at hval
  induction hval with
  | nil =>
    intro acc hsafe b u hb hover post
    simp only [List.sum_nil] at hover
    simp only [List.nil_append, validate_loop, hb]
    rw [if_pos (by omega)]
    simp only [List.sum_nil]
    exact congrArg (fun z => (Except.error (PayloadValidationError.Permanent
      (PayloadPermanentError.PayloadTooBig maxB z)) : Except PayloadValidationError Nat))
      (by omega)
  | @cons b0 v bs vs2 hb0 hrest ih =>
    intro acc hsafe b u hb hover post
    have h1 : acc + v ≤ maxB := by
      have := hsafe 1
      simp at this
      omega
    simp only [List.cons_append, validate_loop, hb0]
    rw [if_neg (by omega)]
    have hsafe2 : ∀ k, (acc + v) + (vs2.take k).sum ≤ maxB := by
      intro k
      have := hsafe (k + 1)
      simp only [List.take_succ_cons, List.sum_cons] at this
      omega
    have hover2 : maxB < (acc + v) + vs2.sum + u := by
      simp only [List.sum_cons] at hover
      omega
    have hrec := ih (acc + v) hsafe2 b u hb hover2 post
    show validate_loop maxB height bp ctx pp (bs ++ b :: post) (acc + v) = _
    rw [hrec]
    simp only [List.sum_cons]
    exact congrArg (fun z => (Except.error (PayloadValidationError.Permanent
      (PayloadPermanentError.PayloadTooBig maxB z)) : Except PayloadValidationError Nat))
      (by omega)

/-- Helper: a successfully validating family can only fail the loop through
the size check, which always reports the budget as `expected` and a strictly
larger running total as `received`. -/
theorem validate_loop_too_big_only {BP Ctx PP : Type} (maxB height : Nat) (bp : BP)
    (ctx : Ctx) (pp : PP) :
    ∀ (builders : List (SectionBuilder BP Ctx PP)) (vs : List Nat),
      validates_to builders vs height bp ctx pp →
      ∀ (acc : Nat) (e r : Nat),
        validate_loop maxB height bp ctx pp builders acc =
          .error (.Permanent (.PayloadTooBig e r)) →
        e = maxB ∧ e < r := by
  intro builders vs hval
  unfold validates_to at hval
  induction hval with
  | nil =>
    intro acc e r h
    simp [validate_loop] at h
  | @cons b0 v bs vs2 hb0 hrest ih =>
    intro acc e r h
    simp only [validate_loop, hb0] at h
    by_cases hc : maxB < acc + v
    · rw [if_pos hc] at h
      simp only [Except.error.injEq, PayloadValidationError.Permanent.injEq,
        PayloadPermanentError.PayloadTooBig.injEq] at h
      obtain ⟨rfl, rfl⟩ := h
      exact ⟨rfl, hc⟩
    · rw [if_neg hc] at h
      exact ih (acc + v) e r h

/-- C4: during validation of a non-summary payload, consumed bytes accumulate
section by section against the resolved budget (here: the budget resolved
from the record the registry returns for the context); the first section that
pushes the running total above the budget makes the whole validation fail
with the permanent `PayloadTooBig` error whose `expected` is the budget and
whose `received` is the running total including that section — and the
builders after it (`post`, universally quantified, e.g. always-failing ones)
are never consulted. -/
theorem validate_early_rejection {BP Ctx PP : Type} (btcMax xnetMax : Nat)
    (pre post : List (SectionBuilder BP Ctx PP)) (b : SectionBuilder BP Ctx PP)
    (reg : Ctx → Except PayloadValidationError SubnetRecord)
    (height : Nat) (bp : BP) (pp : PP) (ctx : Ctx) (record : SubnetRecord)
    (maxB : Nat) (vs : List Nat) (u : Nat)
    (hreg : reg ctx = .ok record)
    (hM : maxB = get_max_block_payload_size_bytes btcMax xnetMax record)
    (hpre : validates_to pre vs height bp ctx pp)
    (hsafe : ∀ k, (vs.take k).sum ≤ maxB)
    (hb : b.validate_payload height bp ctx pp = .ok u)
    (hover : maxB < vs.sum + u) :
    validate_payload btcMax xnetMax ⟨pre ++ b :: post, reg⟩ height (.Data bp) pp ctx =
      .error (.Permanent (.PayloadTooBig maxB (vs.sum + u))) := by
  subst hM
  have hloop := validate_loop_stops (get_max_block_payload_size_bytes btcMax xnetMax record)
    height bp ctx pp pre vs hpre 0
    (fun k => by have := hsafe k; omega) b u hb (by omega) post
  simp only [validate_payload, hreg, hloop]
  simp

/-- C10: the budget bound checked by validation is inclusive. With a registry
record resolving to budget `maxB`: (a) when every section validates and the
accumulated count equals `maxB` exactly, validation succeeds; (b) when every
section validates, any `PayloadTooBig { expected, received }` failure of the
loop has `expected` equal to the budget and `received` strictly above it, so
the error is raised only on strict excess. -/
theorem validate_budget_inclusive {BP Ctx PP : Type} (btcMax xnetMax : Nat)
    (builders : List (SectionBuilder BP Ctx PP))
    (reg : Ctx → Except PayloadValidationError SubnetRecord)
    (height : Nat) (bp : BP) (pp : PP) (ctx : Ctx) (record : SubnetRecord)
    (vs : List Nat)
    (hreg : reg ctx = .ok record)
    (hval : validates_to builders vs height bp ctx pp) :
    (vs.sum = get_max_block_payload_size_bytes btcMax xnetMax record →
      validate_payload btcMax xnetMax ⟨builders, reg⟩ height (.Data bp) pp ctx = .ok ()) ∧
    (∀ e r : Nat,
      validate_loop (get_max_block_payload_size_bytes btcMax xnetMax record) height bp ctx pp
          builders 0 = .error (.Permanent (.PayloadTooBig e r)) →
      e = get_max_block_payload_size_bytes btcMax xnetMax record ∧ e < r) := by
  constructor
  · intro hsum
    have hloop := validate_loop_ok (get_max_block_payload_size_bytes btcMax xnetMax record)
      height bp ctx pp builders vs hval 0 (by omega)
    simp only [validate_payload, hreg, hloop]
  · intro e r h
    exact validate_loop_too_big_only _ height bp ctx pp builders vs hval 0 e r h

/-- C5: when every section builder honors its byte limit — the limit handed to
each section being the truncated (saturating, hence underflow-free)
subtraction of the accumulated size from the resolved budget — the build
loop's accumulated size, which equals the sum of all bytes the sections
reported, never exceeds the budget resolved from the construction-time
subnet record. -/
theorem build_within_budget {BP Ctx PP : Type} (btcMax xnetMax : Nat)
    (pb : PayloadBuilderImpl BP Ctx PP) (height : Nat) (pp : PP) (ctx : Ctx)
    (recs : SubnetRecords) (built : BP) (accB : Nat) (tr : List (Nat × Nat))
    (hcontract : ∀ b ∈ pb.section_builder, ∀ bp lim,
        (b.build_payload bp height ctx lim pp).2 ≤ lim)
    (bp0 : BP)
    (hrun : build_loop pb.section_builder height ctx
        (get_max_block_payload_size_bytes btcMax xnetMax recs.context_version) pp
        (section_select pb.section_builder.length height) bp0 0 = some (built, accB, tr)) :
    accB = (tr.map Prod.snd).sum ∧
    accB ≤ get_max_block_payload_size_bytes btcMax xnetMax recs.context_version := by
  obtain ⟨hfst, hsum⟩ := build_loop_trace pb.section_builder height ctx
    (get_max_block_payload_size_bytes btcMax xnetMax recs.context_version) pp
    (section_select pb.section_builder.length height) bp0 0 built accB tr hrun
  refine ⟨by omega, ?_⟩
  exact build_loop_acc_le pb.section_builder height ctx
    (get_max_block_payload_size_bytes btcMax xnetMax recs.context_version) pp hcontract
    (section_select pb.section_builder.length height) bp0 0 built accB tr
    (Nat.zero_le _) hrun

/-- Helper: `get_payload` succeeds whenever there is at least one section
builder. -/
theorem get_payload_isSome {BP Ctx PP : Type} [Inhabited BP] (btcMax xnetMax : Nat)
    (pb : PayloadBuilderImpl BP Ctx PP) (height : Nat) (pp : PP) (ctx : Ctx)
    (recs : SubnetRecords) (hne : pb.section_builder.length ≠ 0) :
    ∃ result, get_payload btcMax xnetMax pb height pp ctx recs = some result := by
  simp only [get_payload]
  rw [if_neg hne]
  have htot := build_loop_total pb.section_builder height ctx
    (get_max_block_payload_size_bytes btcMax xnetMax recs.context_version) pp
    (section_select pb.section_builder.length height) default 0
    (fun i hi => mem_section_select_lt hi)
  obtain ⟨res, hres⟩ := Option.isSome_iff_exists.mp htot
  exact ⟨res.1, by rw [hres]; rfl⟩

/-- C9: Build is total. For every payload builder made by the constructor
(which always installs the 4 section kinds), every height, history, context
and pair of subnet records — including misconfigured records whose
`max_block_payload_size` is below the required minimum — `get_payload`
returns a batch payload (it never hits a panic point, modelled here by
`none`); on a misconfigured record it degrades by running with the clamped
budget `required_min_size` instead of failing. -/
theorem get_payload_never_fails {BP Ctx PP : Type} [Inhabited BP] (btcMax xnetMax : Nat)
    (a b c d : SectionBuilder BP Ctx PP)
    (reg : Ctx → Except PayloadValidationError SubnetRecord)
    (height : Nat) (pp : PP) (ctx : Ctx) (recs : SubnetRecords) :
    (∃ result, get_payload btcMax xnetMax (PayloadBuilderImpl.new a b c d reg)
        height pp ctx recs = some result) ∧
    (recs.context_version.max_block_payload_size <
        required_min_size btcMax xnetMax recs.context_version →
      get_max_block_payload_size_bytes btcMax xnetMax recs.context_version =
        required_min_size btcMax xnetMax recs.context_version) := by
  constructor
  · exact get_payload_isSome btcMax xnetMax (PayloadBuilderImpl.new a b c d reg)
      height pp ctx recs (by simp [PayloadBuilderImpl.new])
  · intro hmis
    unfold get_max_block_payload_size_bytes
    rw [if_pos hmis]

/-- Helper: the first element of the rotated order, in closed form. -/
theorem firstSlot_eq (n height : Nat) (hn : 0 < n) :
    firstSlot n height = (n - height % n) % n := by
  unfold firstSlot section_select rotateRight
  rw [List.length_range]
  rcases Nat.eq_zero_or_pos (height % n) with hk | hk
  · rw [hk, Nat.sub_zero]
    have h1 : (List.range n).drop n = [] := List.drop_eq_nil_of_le (by simp)
    have h2 : (List.range n).take n = List.range n := List.take_of_length_le (by simp)
    rw [h1, h2, List.nil_append]
    rw [List.headD_eq_head?_getD, List.head?_eq_getElem?, List.getElem?_range hn]
    simp [Nat.mod_self]
  · have hklt : height % n < n := Nat.mod_lt _ hn
    have hsub : n - height % n < n := Nat.sub_lt hn hk
    have hlen : ((List.range n).drop (n - height % n)).length = height % n := by
      simp [List.length_drop]
      omega
    rw [List.headD_eq_head?_getD, List.head?_eq_getElem?]
    rw [List.getElem?_append_left (by rw [hlen]; exact hk)]
    rw [List.getElem?_drop, Nat.add_zero]
    rw [List.getElem?_range hsub]
    simp only [Option.getD_some]
    exact (Nat.mod_eq_of_lt hsub).symm

/-- Helper: `k ↦ (n - k) % n` is injective below `n`. -/
theorem firstSlot_inj_aux (n a b : Nat) (hn : 0 < n) (ha : a < n) (hb : b < n)
    (h : (n - a) % n = (n - b) % n) : a = b := by
  by_cases haz : a = 0 <;> by_cases hbz : b = 0
  · omega
  · subst haz
    rw [Nat.sub_zero, Nat.mod_self] at h
    rw [Nat.mod_eq_of_lt (by omega)] at h
    omega
  · subst hbz
    rw [Nat.sub_zero, Nat.mod_self] at h
    rw [Nat.mod_eq_of_lt (by omega)] at h
    omega
  · rw [Nat.mod_eq_of_lt (by omega), Nat.mod_eq_of_lt (by omega)] at h
    omega

/-- Helper: adding a fixed offset is injective modulo `n` on `[0, n)`. -/
theorem mod_add_inj (n h0 x y : Nat) (hn : 0 < n) (hx : x < n) (hy : y < n)
    (h : (h0 + x) % n = (h0 + y) % n) : x = y := by
  have hxy : x % n = y % n := Nat.ModEq.add_left_cancel' h0 h
  rwa [Nat.mod_eq_of_lt hx, Nat.mod_eq_of_lt hy] at hxy

/-- Helper: over `n` consecutive heights, the first rotation slot takes each
section index exactly once. -/
theorem firstSlot_cycle (n h0 : Nat) (hn : 0 < n) :
    ((List.range n).map (fun j => firstSlot n (h0 + j))).Perm (List.range n) := by
  have hval : ∀ j, firstSlot n (h0 + j) = (n - (h0 + j) % n) % n :=
    fun j => firstSlot_eq n (h0 + j) hn
  have hnodup : ((List.range n).map (fun j => firstSlot n (h0 + j))).Nodup := by
    refine List.Nodup.map_on ?_ (List.nodup_range n)
    intro x hx y hy hxy
    rw [List.mem_range] at hx hy
    rw [hval x, hval y] at hxy
    have hax : (h0 + x) % n < n := Nat.mod_lt _ hn
    have hay : (h0 + y) % n < n := Nat.mod_lt _ hn
    exact mod_add_inj n h0 x y hn hx hy
      (firstSlot_inj_aux n ((h0 + x) % n) ((h0 + y) % n) hn hax hay hxy)
  have hsub : ((List.range n).map (fun j => firstSlot n (h0 + j))) ⊆ List.range n := by
    intro s hs
    rw [List.mem_map] at hs
    obtain ⟨j, hj, rfl⟩ := hs
    rw [hval j, List.mem_range]
    exact Nat.mod_lt _ hn
  exact (List.subperm_of_subset hnodup hsub).perm_of_length_le (by simp)

/-- C6: Build visits the section builders in the `(0..n)` order rotated right
by `height % n`; over `n` consecutive heights the first rotation slot takes
each section exactly once (for every window start `h0`); and at height 7 with
4 sections the rotation offset is `7 % 4 = 3`, giving the order rotated right
by 3 positions, `[1, 2, 3, 0]`. -/
theorem rotation_fairness :
    (∀ n h0 : Nat, 0 < n →
      ((List.range n).map (fun j => firstSlot n (h0 + j))).Perm (List.range n)) ∧
    7 % 4 = 3 ∧
    section_select 4 7 = rotateRight (List.range 4) 3 ∧
    section_select 4 7 = [1, 2, 3, 0] :=
  ⟨fun n h0 hn => firstSlot_cycle n h0 hn, by decide, by decide, by decide⟩

/-- C6 (witness): the fairness part of the rotation theorem applied at the
window of 4 consecutive heights starting at height 10. -/
theorem rotation_fairness_witness :
    ((List.range 4).map (fun j => firstSlot 4 (10 + j))).Perm (List.range 4) :=
  rotation_fairness.1 4 10 (by decide)

/-- Section builder that records its identity in the batch payload when
building: it makes the visit order of `get_payload` observable. -/
def order_probe (i : Nat) : SectionBuilder (List Nat) Unit Unit :=
  { build_payload := fun bp _ _ _ _ => (bp ++ [i], 0)
    validate_payload := fun _ _ _ _ => .ok 0 }

/-- Payload builder over the four order probes. -/
def order_probe_pb : PayloadBuilderImpl (List Nat) Unit Unit :=
  PayloadBuilderImpl.new (order_probe 0) (order_probe 1) (order_probe 2) (order_probe 3)
    (fun _ => .ok ⟨0, 0⟩)

/-- C8: validation walks the section builders in the fixed constructor order
(Ingress, SelfValidating, XNet, CanisterHttp), independent of the height:
(i) the validation loop's outcome is height-invariant whenever the builders'
own validators are (no rotation enters); (ii) the constructor installs
exactly the order it was given; (iii) the rotation belongs to Build alone:
the order probes build height-invariantly, yet `get_payload` at heights 0
and 1 produce payloads written in different orders. -/
theorem validate_unrotated_build_rotated :
    (∀ (BP Ctx PP : Type) (builders : List (SectionBuilder BP Ctx PP)) (maxB h1 h2 : Nat)
        (bp : BP) (ctx : Ctx) (pp : PP) (acc : Nat),
      (∀ b ∈ builders, b.validate_payload h1 bp ctx pp = b.validate_payload h2 bp ctx pp) →
      validate_loop maxB h1 bp ctx pp builders acc =
        validate_loop maxB h2 bp ctx pp builders acc) ∧
    (∀ (BP Ctx PP : Type) (a b c d : SectionBuilder BP Ctx PP)
        (reg : Ctx → Except PayloadValidationError SubnetRecord),
      (PayloadBuilderImpl.new a b c d reg).section_builder = [a, b, c, d]) ∧
    (∀ b ∈ order_probe_pb.section_builder, ∀ bp lim,
        b.build_payload bp 0 () lim () = b.build_payload bp 1 () lim ()) ∧
    get_payload 0 0 order_probe_pb 0 () () ⟨⟨0, 0⟩, ⟨0, 0⟩⟩ ≠
      get_payload 0 0 order_probe_pb 1 () () ⟨⟨0, 0⟩, ⟨0, 0⟩⟩ := by
  refine ⟨?_, fun BP Ctx PP a b c d reg => rfl, ?_, by decide⟩
  · intro BP Ctx PP builders maxB h1 h2 bp ctx pp
    induction builders with
    | nil => intro acc hinv; rfl
    | cons b0 rest ih =>
      intro acc hinv
      have hb0 := hinv b0 (List.mem_cons_self _ _)
      cases hres : b0.validate_payload h2 bp ctx pp with
      | error e => simp only [validate_loop, hb0, hres]
      | ok used =>
        simp only [validate_loop, hb0, hres]
        by_cases hc : maxB < acc + used
        · rw [if_pos hc, if_pos hc]
        · rw [if_neg hc, if_neg hc]
          exact ih (acc + used) (fun b hb => hinv b (List.mem_cons_of_mem _ hb))
  · intro b hb bp lim
    simp only [order_probe_pb, PayloadBuilderImpl.new, List.mem_cons,
      List.mem_singleton] at hb
    rcases hb with rfl | rfl | rfl | rfl | hb
    · rfl
    · rfl
    · rfl
    · rfl
    · simp at hb

/-- Height-blind section used to witness the height invariance of validation. -/
def height_blind_section : SectionBuilder Nat Unit Unit :=
  { build_payload := fun bp _ _ _ _ => (bp, 0)
    validate_payload := fun _ bp _ _ => .ok bp }

/-- C8 (witness): the height-invariance part applied at heights 0 and 9 with a
concrete height-blind section and budget 5. -/
theorem validate_unrotated_build_rotated_witness :
    validate_loop 5 0 7 () () [height_blind_section] 0 =
      validate_loop 5 9 7 () () [height_blind_section] 0 :=
  validate_unrotated_build_rotated.1 Nat Unit Unit [height_blind_section] 5 0 9 7 () () 0
    (fun b hb => by
      rcases List.mem_singleton.mp hb with rfl
      rfl)

/-- Byte count a section at index `j` is charged by validation: the value its
`validate_payload` returns on the built payload (0 when out of range or
failing; those cases are ruled out where this is used). -/
def observed_bytes {BP Ctx PP : Type} (builders : List (SectionBuilder BP Ctx PP))
    (height : Nat) (bp : BP) (ctx : Ctx) (pp : PP) (j : Nat) : Nat :=
  match builders.get? j with
  | none => 0
  | some b =>
    match b.validate_payload height bp ctx pp with
    | .ok u => u
    | .error _ => 0

/-- C3 (amended): a payload produced by Build at a height passes Validate at
the same height with the same context and past payloads, provided the section
builders' validators accept what their builders wrote, reporting exactly the
byte counts reported during the build (hypothesis `hval` over the build
trace), the registry yields at validation time the same subnet record Build
used, **and every builder honors its byte limit** (hypothesis `hcontract`,
the section-builder contract; the claim fails without it, see the
counterexample). -/
theorem build_roundtrip_validates {BP Ctx PP : Type} [Inhabited BP] (btcMax xnetMax : Nat)
    (pb : PayloadBuilderImpl BP Ctx PP) (height : Nat) (pp : PP) (ctx : Ctx)
    (recs : SubnetRecords) (built : BP) (accB : Nat) (tr : List (Nat × Nat))
    (hcontract : ∀ b ∈ pb.section_builder, ∀ bp lim,
        (b.build_payload bp height ctx lim pp).2 ≤ lim)
    (hne : pb.section_builder.length ≠ 0)
    (hrun : build_loop pb.section_builder height ctx
        (get_max_block_payload_size_bytes btcMax xnetMax recs.context_version) pp
        (section_select pb.section_builder.length height) default 0 = some (built, accB, tr))
    (hreg : pb.registry ctx = .ok recs.context_version)
    (hval : ∀ i u, (i, u) ∈ tr → ∀ b, pb.section_builder.get? i = some b →
        b.validate_payload height built ctx pp = .ok u) :
    get_payload btcMax xnetMax pb height pp ctx recs = some built ∧
    validate_payload btcMax xnetMax pb height (.Data built) pp ctx = .ok () := by
  constructor
  · simp only [get_payload]
    rw [if_neg hne, hrun]
    rfl
  · obtain ⟨hfst, hsum⟩ := build_loop_trace pb.section_builder height ctx
      (get_max_block_payload_size_bytes btcMax xnetMax recs.context_version) pp
      (section_select pb.section_builder.length height) default 0 built accB tr hrun
    have haccle := build_loop_acc_le pb.section_builder height ctx
      (get_max_block_payload_size_bytes btcMax xnetMax recs.context_version) pp hcontract
      (section_select pb.section_builder.length height) default 0 built accB tr
      (Nat.zero_le _) hrun
    have htrobs : ∀ p ∈ tr,
        observed_bytes pb.section_builder height built ctx pp p.1 = p.2 := by
      intro p hp
      have hp1sel : p.1 ∈ section_select pb.section_builder.length height := by
        rw [← hfst]
        exact List.mem_map_of_mem Prod.fst hp
      have hlt := mem_section_select_lt hp1sel
      have hget := List.get?_eq_get hlt
      have hvv := hval p.1 p.2 (by rw [Prod.mk.eta]; exact hp) _ hget
      simp only [observed_bytes, hget, hvv]
    have hjex : ∀ j, j < pb.section_builder.length → ∃ p ∈ tr, p.1 = j := by
      intro j hj
      have hmem : j ∈ section_select pb.section_builder.length height :=
        ((section_select_perm pb.section_builder.length height).mem_iff).mpr
          (List.mem_range.mpr hj)
      rw [← hfst] at hmem
      obtain ⟨p, hp, hpj⟩ := List.mem_map.mp hmem
      exact ⟨p, hp, hpj⟩
    have hvalidates : validates_to pb.section_builder
        ((List.range pb.section_builder.length).map
          (observed_bytes pb.section_builder height built ctx pp)) height built ctx pp := by
      unfold validates_to
      rw [List.forall₂_iff_get]
      refine ⟨by simp, ?_⟩
      intro i h1 h2
      obtain ⟨p, hp, hpj⟩ := hjex i h1
      rw [List.get_map, List.get_range]
      have hvv := hval i p.2 (by rw [← hpj, Prod.mk.eta]; exact hp) _ (List.get?_eq_get h1)
      have hobs2 : observed_bytes pb.section_builder height built ctx pp i = p.2 := by
        rw [← hpj]
        exact htrobs p hp
      rw [hobs2]
      exact hvv
    have hmapeq : (section_select pb.section_builder.length height).map
        (observed_bytes pb.section_builder height built ctx pp) = tr.map Prod.snd := by
      rw [← hfst, List.map_map]
      exact List.map_congr_left (fun p hp => htrobs p hp)
    have hsum2 : ((List.range pb.section_builder.length).map
        (observed_bytes pb.section_builder height built ctx pp)).sum = accB := by
      have hperm := ((section_select_perm pb.section_builder.length height).map
        (observed_bytes pb.section_builder height built ctx pp)).sum_eq
      rw [hmapeq] at hperm
      omega
    have hloop := validate_loop_ok
      (get_max_block_payload_size_bytes btcMax xnetMax recs.context_version) height built
      ctx pp pb.section_builder
      ((List.range pb.section_builder.length).map
        (observed_bytes pb.section_builder height built ctx pp))
      hvalidates 0 (by omega)
    simp only [validate_payload, hreg, hloop]

/-- Section builder that over-reports: it writes one unit into the payload but
reports one byte more than the limit it was given; its validator accepts any
payload and reports the same 6 bytes the build reported under budget 5. -/
def overreport_section : SectionBuilder Nat Unit Unit :=
  { build_payload := fun bp _ _ lim _ => (bp + 1, lim + 1)
    validate_payload := fun _ _ _ _ => .ok 6 }

/-- Payload builder over the over-reporting section, with a registry that
always returns the record both build and validate use. -/
def overreport_pb : PayloadBuilderImpl Nat Unit Unit :=
  { section_builder := [overreport_section]
    registry := fun _ => .ok ⟨5, 0⟩ }

/-- C3 (counterexample): at height 0, record `{max_block_payload_size := 5,
max_ingress_bytes_per_message := 0}` and floors 0 (budget 5), the
over-reporting family satisfies the claim's hypotheses — validation accepts
the payload Build wrote (`1`) and reports exactly the 6 bytes build reported,
and the registry yields the record used at construction — yet the payload
produced by Build fails Validate with `PayloadTooBig`: the claim as stated
(without the byte-limit contract on builders) is false. -/
theorem build_roundtrip_cx :
    build_loop overreport_pb.section_builder 0 ()
        (get_max_block_payload_size_bytes 0 0 ⟨5, 0⟩) ()
        (section_select overreport_pb.section_builder.length 0) 0 0 =
      some (1, 6, [(0, 6)]) ∧
    overreport_section.validate_payload 0 1 () () = .ok 6 ∧
    overreport_pb.registry () = .ok ⟨5, 0⟩ ∧
    get_payload 0 0 overreport_pb 0 () () ⟨⟨5, 0⟩, ⟨5, 0⟩⟩ = some 1 ∧
    validate_payload 0 0 overreport_pb 0 (.Data 1) () () =
      .error (.Permanent (.PayloadTooBig 5 6)) :=
  ⟨by decide, by decide, by decide, by decide, by decide⟩

/-- Well-behaved round-trip section: writes one unit, reports at most 3 bytes
within its limit, and validates exactly that written payload with 3 bytes. -/
def roundtrip_section : SectionBuilder Nat Unit Unit :=
  { build_payload := fun bp _ _ lim _ => (bp + 1, min 3 lim)
    validate_payload := fun _ bp _ _ => if bp = 1 then .ok 3 else .error (.Transient 0) }

/-- Payload builder over the round-trip section. -/
def roundtrip_pb : PayloadBuilderImpl Nat Unit Unit :=
  { section_builder := [roundtrip_section]
    registry := fun _ => .ok ⟨10, 0⟩ }

/-- C3 (witness): the amended round-trip theorem applied to the well-behaved
section at height 0 with budget 10: Build yields payload `1` and Validate
accepts it. -/
theorem build_roundtrip_validates_witness :
    get_payload 0 0 roundtrip_pb 0 () () ⟨⟨10, 0⟩, ⟨10, 0⟩⟩ = some 1 ∧
    validate_payload 0 0 roundtrip_pb 0 (.Data 1) () () = .ok () :=
  build_roundtrip_validates 0 0 roundtrip_pb 0 () () ⟨⟨10, 0⟩, ⟨10, 0⟩⟩ 1 3 [(0, 3)]
    (by
      intro b hb bp lim
      rcases List.mem_singleton.mp hb with rfl
      exact Nat.min_le_right 3 lim)
    (by decide)
    (by decide)
    (by decide)
    (by
      intro i u hmem b hget
      simp at hmem
      obtain ⟨rfl, rfl⟩ := hmem
      simp [roundtrip_pb] at hget
      subst hget
      decide)

/-- Section whose validator always charges 3 bytes. -/
def sec_ok3 : SectionBuilder Nat Unit Unit :=
  { build_payload := fun bp _ _ _ _ => (bp, 0)
    validate_payload := fun _ _ _ _ => .ok 3 }

/-- Section whose validator always charges 10 bytes. -/
def sec_ok10 : SectionBuilder Nat Unit Unit :=
  { build_payload := fun bp _ _ _ _ => (bp, 0)
    validate_payload := fun _ _ _ _ => .ok 10 }

/-- Section whose validator always fails with a section-specific fault. -/
def sec_fail : SectionBuilder Nat Unit Unit :=
  { build_payload := fun bp _ _ _ _ => (bp, 0)
    validate_payload := fun _ _ _ _ => .error (.Permanent (.SectionFault 7)) }

/-- C4 (witness): with budget 5, a first section charging 3 bytes and a second
charging 10, validation rejects with `PayloadTooBig {expected := 5,
received := 13}` without consulting the third, always-failing section. -/
theorem validate_early_rejection_witness :
    validate_payload 0 0 ⟨[sec_ok3, sec_ok10, sec_fail], fun _ => .ok ⟨5, 0⟩⟩ 0
        (.Data 0) () () = .error (.Permanent (.PayloadTooBig 5 13)) :=
  validate_early_rejection 0 0 [sec_ok3] [sec_fail] sec_ok10 (fun _ => .ok ⟨5, 0⟩) 0 0 () ()
    ⟨5, 0⟩ 5 [3] 10 (by decide) (by decide)
    (List.Forall₂.cons (by decide) List.Forall₂.nil)
    (by intro k; rcases k with _ | k <;> simp)
    (by decide) (by decide)

/-- Section whose validator always charges 5 bytes. -/
def sec_ok5 : SectionBuilder Nat Unit Unit :=
  { build_payload := fun bp _ _ _ _ => (bp, 0)
    validate_payload := fun _ _ _ _ => .ok 5 }

/-- C10 (witness): with budget 5 and a single section charging exactly 5
bytes, the accumulated count equals the budget and validation succeeds. -/
theorem validate_budget_inclusive_witness :
    validate_payload 0 0 ⟨[sec_ok5], fun _ => .ok ⟨5, 0⟩⟩ 0 (.Data 0) () () = .ok () :=
  (validate_budget_inclusive 0 0 [sec_ok5] (fun _ => .ok ⟨5, 0⟩) 0 0 () () ⟨5, 0⟩ [5]
    (by decide) (List.Forall₂.cons (by decide) List.Forall₂.nil)).1 (by decide)

/-- Section that consumes up to 5 bytes of whatever limit it is given,
honoring the byte-limit contract. -/
def greedy5_section : SectionBuilder Nat Unit Unit :=
  { build_payload := fun bp _ _ lim _ => (bp + min 5 lim, min 5 lim)
    validate_payload := fun _ _ _ _ => .ok 0 }

/-- Payload builder over the greedy section, with budget 10. -/
def greedy5_pb : PayloadBuilderImpl Nat Unit Unit :=
  { section_builder := [greedy5_section]
    registry := fun _ => .ok ⟨10, 0⟩ }

/-- C5 (witness): the build loop over the greedy section at budget 10
accumulates exactly the 5 reported bytes, within budget. -/
theorem build_within_budget_witness :
    (5 : Nat) = ([((0 : Nat), (5 : Nat))].map Prod.snd).sum ∧
    (5 : Nat) ≤ get_max_block_payload_size_bytes 0 0 ⟨10, 0⟩ :=
  build_within_budget 0 0 greedy5_pb 0 () () ⟨⟨10, 0⟩, ⟨10, 0⟩⟩ 5 5 [(0, 5)]
    (by
      intro b hb bp lim
      rcases List.mem_singleton.mp hb with rfl
      exact Nat.min_le_right 5 lim)
    0 (by decide)

/-- Section that writes nothing and reports zero bytes. -/
def idle_section : SectionBuilder Nat Unit Unit :=
  { build_payload := fun bp _ _ _ _ => (bp, 0)
    validate_payload := fun _ _ _ _ => .ok 0 }

/-- C9 (witness): the totality theorem applied at height 7 with the spec's
misconfigured record (`max_block_payload_size` 500 below the required minimum
of one million): Build still returns a payload and the budget is clamped. -/
theorem get_payload_never_fails_witness :
    (∃ result, get_payload 0 0
        (PayloadBuilderImpl.new idle_section idle_section idle_section idle_section
          (fun _ => .ok ⟨500, 1000000⟩)) 7 () () ⟨⟨500, 1000000⟩, ⟨500, 1000000⟩⟩ =
        some result) ∧
    get_max_block_payload_size_bytes 0 0 ⟨500, 1000000⟩ =
      required_min_size 0 0 ⟨500, 1000000⟩ :=
  ⟨(get_payload_never_fails 0 0 idle_section idle_section idle_section idle_section
      (fun _ => .ok ⟨500, 1000000⟩) 7 () () ⟨⟨500, 1000000⟩, ⟨500, 1000000⟩⟩).1,
   (get_payload_never_fails 0 0 idle_section idle_section idle_section idle_section
      (fun _ => .ok ⟨500, 1000000⟩) 7 () () ⟨⟨500, 1000000⟩, ⟨500, 1000000⟩⟩).2 (by decide)⟩

end ICPayload

